import Mathlib

/-!
Verification development for the iceoryx2 request/response example.

The Rust sources are embedded shallowly:
- `src/events.rs`: the `IpcEvent` enumeration, its `usize` discriminants and the
  total decoding `From<EventId> for IpcEvent` (via `TryFromPrimitive` with an
  `unwrap_or(Unknown)` fallback).
- `src/messages.rs`: `Request`, `Response` and the borrowing view `ResponseRef`,
  together with their bincode 1.x wire format (fixed-width little-endian
  integers, `u32` variant tags, `u64` length prefixes).  Byte strings are
  `List Nat`; a `PathBuf` is represented by its UTF-8 byte content.
- `src/client.rs` / `src/server.rs`: the per-event handler bodies
  (`handle_event` arms), the `send` / `receive` helpers, the reactor callbacks
  (`on_event` closures in `run`), the deadline constants, and the
  construction / `Drop` notification sequences.  Fallible transport and
  filesystem operations are supplied as oracle values in an environment
  record; observable effects (notify, publish, warnings, connection refresh)
  are recorded as an `Action` trace; panics (`unwrap`), propagated errors
  (`?`), and `ControlFlow::Break` are distinguished in the `StepExit` type.
-/

set_option maxHeartbeats 1000000
set_option maxRecDepth 8192

/-- Event vocabulary of `src/events.rs`: the eleven variants of `IpcEvent`. -/
inductive IpcEvent
  | ServerConnected
  | ServerDisconnected
  | ClientConnected
  | ClientDisconnected
  | RequestSent
  | RequestReceived
  | ResponseSent
  | ResponseReceived
  | ServerReady
  | ProcessDied
  | Unknown
  deriving DecidableEq, Repr

/-- Discriminants of `IpcEvent` (`#[repr(usize)]`, `ServerConnected = 0`,
then consecutive, and `Unknown = u32::MAX as usize`); this is the value
carried by `EventId` via `From<IpcEvent> for EventId`. -/
def IpcEvent.discriminant : IpcEvent → Nat
  | .ServerConnected => 0
  | .ServerDisconnected => 1
  | .ClientConnected => 2
  | .ClientDisconnected => 3
  | .RequestSent => 4
  | .RequestReceived => 5
  | .ResponseSent => 6
  | .ResponseReceived => 7
  | .ServerReady => 8
  | .ProcessDied => 9
  | .Unknown => 4294967295

/-- The `TryFromPrimitive` instance derived on `IpcEvent`: succeeds exactly on
the eleven declared discriminants. -/
def IpcEvent.tryFromPrimitive (n : Nat) : Option IpcEvent :=
  match n with
  | 0 => some .ServerConnected
  | 1 => some .ServerDisconnected
  | 2 => some .ClientConnected
  | 3 => some .ClientDisconnected
  | 4 => some .RequestSent
  | 5 => some .RequestReceived
  | 6 => some .ResponseSent
  | 7 => some .ResponseReceived
  | 8 => some .ServerReady
  | 9 => some .ProcessDied
  | m + 10 => if m + 10 = 4294967295 then some .Unknown else none

/-- Total event decoding, `impl From<EventId> for IpcEvent`:
`IpcEvent::try_from(value.as_value()).unwrap_or(IpcEvent::Unknown)`. -/
def IpcEvent.fromEventId (n : Nat) : IpcEvent :=
  (IpcEvent.tryFromPrimitive n).getD .Unknown

/-- A path's byte content and an owned byte buffer are both byte lists. -/
abbrev Bytes := List Nat

/-- Request messages of `src/messages.rs` (`PathBuf` represented by its UTF-8
bytes). -/
inductive Request
  | GetFileSize (path : Bytes)
  | GetFileContent (path : Bytes)
  deriving DecidableEq, Repr

/-- Response messages of `src/messages.rs` (`u64` sizes as `Nat`, `Vec<u8>`
as a byte list). -/
inductive Response
  | FileSize (size : Nat)
  | FileContent (data : Bytes)
  deriving DecidableEq, Repr

/-- The borrowing read-only view `ResponseRef<'a>` of `src/messages.rs`:
structurally identical to `Response`, its payload borrows (`&[u8]`) rather
than owns; in the embedding both are byte lists. -/
inductive ResponseRef
  | FileSize (size : Nat)
  | FileContent (data : Bytes)
  deriving DecidableEq, Repr

/-- The view of an owning `Response` as a `ResponseRef`: same tag, same
bytes. -/
def Response.toRef : Response → ResponseRef
  | .FileSize n => .FileSize n
  | .FileContent d => .FileContent d

/-- Little-endian fixed 4-byte encoding of a `u32` (bincode 1.x fixint). -/
def u32le (n : Nat) : Bytes :=
  [n % 256, n / 256 % 256, n / 65536 % 256, n / 16777216 % 256]

/-- Little-endian fixed 8-byte encoding of a `u64` (bincode 1.x fixint). -/
def u64le (n : Nat) : Bytes :=
  [n % 256, n / 256 % 256, n / 65536 % 256, n / 16777216 % 256,
   n / 4294967296 % 256, n / 1099511627776 % 256,
   n / 281474976710656 % 256, n / 72057594037927936 % 256]

/-- Reads a little-endian `u32` from the head of a byte stream. -/
def readU32 : Bytes → Option (Nat × Bytes)
  | b0 :: b1 :: b2 :: b3 :: rest =>
      some (b0 + 256 * (b1 + 256 * (b2 + 256 * b3)), rest)
  | _ => none

/-- Reads a little-endian `u64` from the head of a byte stream. -/
def readU64 : Bytes → Option (Nat × Bytes)
  | b0 :: b1 :: b2 :: b3 :: b4 :: b5 :: b6 :: b7 :: rest =>
      some (b0 + 256 * (b1 + 256 * (b2 + 256 * (b3 + 256 * (b4 + 256 *
            (b5 + 256 * (b6 + 256 * b7)))))), rest)
  | _ => none

/-- Reads exactly `n` raw bytes from the head of a byte stream. -/
def readBytes (n : Nat) (bs : Bytes) : Option (Bytes × Bytes) :=
  if n ≤ bs.length then some (bs.take n, bs.drop n) else none

/-- Wire encoding of a `Request` under `bincode::serialize`: a `u32` variant
tag (`GetFileSize = 0`, `GetFileContent = 1`) followed by the path as a
`u64` length prefix and its UTF-8 bytes. -/
def encodeRequest : Request → Bytes
  | .GetFileSize p => u32le 0 ++ u64le p.length ++ p
  | .GetFileContent p => u32le 1 ++ u64le p.length ++ p

/-- Wire encoding of a `Response` under `bincode::serialize`: a `u32` variant
tag (`FileSize = 0`, `FileContent = 1`), then either the `u64` size or the
`u64`-length-prefixed byte buffer. -/
def encodeResponse : Response → Bytes
  | .FileSize n => u32le 0 ++ u64le n
  | .FileContent d => u32le 1 ++ u64le d.length ++ d

/-- Wire decoding of a `Request` under `bincode::deserialize`: fails
(`Malformed`) on a truncated stream or an out-of-range variant tag. -/
def decodeRequest (bs : Bytes) : Option Request := do
  let (tag, rest) ← readU32 bs
  let (len, rest) ← readU64 rest
  let (p, _) ← readBytes len rest
  match tag with
  | 0 => some (.GetFileSize p)
  | 1 => some (.GetFileContent p)
  | _ => none

/-- Wire decoding of an owning `Response` under `bincode::deserialize`. -/
def decodeResponse (bs : Bytes) : Option Response := do
  let (tag, rest) ← readU32 bs
  match tag with
  | 0 => do
      let (n, _) ← readU64 rest
      some (.FileSize n)
  | 1 => do
      let (len, rest) ← readU64 rest
      let (d, _) ← readBytes len rest
      some (.FileContent d)
  | _ => none

/-- Wire decoding of the borrowing view `ResponseRef` under
`bincode::deserialize`; the derived `Deserialize` impl is structurally
identical to the owning one, the payload borrowing the input bytes. -/
def decodeResponseRef (bs : Bytes) : Option ResponseRef := do
  let (tag, rest) ← readU32 bs
  match tag with
  | 0 => do
      let (n, _) ← readU64 rest
      some (.FileSize n)
  | 1 => do
      let (len, rest) ← readU64 rest
      let (d, _) ← readBytes len rest
      some (.FileContent d)
  | _ => none

/-- A `Request` is constructible in the source when its path fits a `usize`
(`u64` on the target); the length prefix is a `u64`. -/
def Request.constructible : Request → Prop
  | .GetFileSize p => p.length < 18446744073709551616
  | .GetFileContent p => p.length < 18446744073709551616

/-- A `Response` is constructible when its `u64` size, or its buffer length,
fits a `u64`. -/
def Response.constructible : Response → Prop
  | .FileSize n => n < 18446744073709551616
  | .FileContent d => d.length < 18446744073709551616

/-- Observable side effects of the sessions: event notifications
(`notify_with_custom_event_id`), byte-slice publishes (`loan` + `send`),
connection refreshes (`update_connections`), deadline warnings (`println!`
of the miss), decoded responses surfaced to the user, and the server's
`cleanup_dead_nodes` remediation pass. -/
inductive IpcAction
  | notify (e : IpcEvent)
  | publish (data : Bytes)
  | updateConnections
  | warn
  | surfaceResponse (r : ResponseRef)
  | cleanupDeadNodes
  deriving DecidableEq, Repr

/-- How one `handle_event` invocation ends: normal completion
(`Ok(ControlFlow::Continue)` / `Ok(())`), the client's `Ok(ControlFlow::Break)`,
a propagated `Err` (the `?` operator), or a panic (`unwrap` on a `Malformed`
decode). -/
inductive StepExit
  | cont
  | brk
  | err
  | unwind
  deriving DecidableEq, Repr

/-- Oracle for the fallible collaborators one client handler arm may touch:
the non-blocking `subscriber.receive()` pull (`Except.error` is a transport
failure, `none` is an empty buffer), the `read_line` result (`none` is
Ctrl+C or end of input), and whether `loan_slice_uninit` + `send` succeeds. -/
structure ClientEnv where
  pull : Except Unit (Option Bytes)
  input : Option Bytes
  publishOk : Bool

/-- Result triple of a handler step: new connection flag, emitted actions,
and how the step ended. -/
abbrev StepResult := Bool × List IpcAction × StepExit

/-- The client's `send` (`src/client.rs`): publish the bytes, then notify
`RequestSent`; a failed publish returns `Err` before the notify. -/
def IpcClient.send (publishOk : Bool) (data : Bytes) :
    List IpcAction × Except Unit Unit :=
  if publishOk then ([.publish data, .notify .RequestSent], .ok ())
  else ([], .error ())

/-- The client's `receive` (`src/client.rs`): non-blocking pull; on a
received sample notify `ResponseReceived` and return it; absence is not an
error; a failing pull propagates. -/
def IpcClient.receive (pull : Except Unit (Option Bytes)) :
    List IpcAction × Except Unit (Option Bytes) :=
  match pull with
  | .error e => ([], .error e)
  | .ok none => ([], .ok none)
  | .ok (some s) => ([.notify .ResponseReceived], .ok (some s))

/-- One arm of the client's `handle_event` loop (`src/client.rs` lines
149-193), processing a single decoded event against the
`is_server_running` flag:
`ServerConnected` refreshes connections and sets the flag; `ServerDisconnected`
clears it; `RequestReceived` is informational; `ResponseSent` pulls (errors and
absence silently absorbed by `if let Ok(Some(..))`), notifies
`ResponseReceived`, and `unwrap`s the `ResponseRef` decode; `ServerReady` sets
the flag, blocks for a line of input (`None` breaks out of the reactor), and
discards the result of `send`; every other event is ignored. -/
def clientHandleOne (is_server_running : Bool) (env : ClientEnv)
    (ev : IpcEvent) : StepResult :=
  match ev with
  | .ServerConnected => (true, [.updateConnections], .cont)
  | .ServerDisconnected => (false, [], .cont)
  | .RequestReceived => (is_server_running, [], .cont)
  | .ResponseSent =>
      match IpcClient.receive env.pull with
      | (acts, .ok (some s)) =>
          match decodeResponseRef s with
          | some r => (is_server_running, acts ++ [.surfaceResponse r], .cont)
          | none => (is_server_running, acts, .unwind)
      | (acts, _) => (is_server_running, acts, .cont)
  | .ServerReady =>
      match env.input with
      | some line =>
          let bytes := encodeRequest (.GetFileContent line)
          let (acts, _) := IpcClient.send env.publishOk bytes
          (true, acts, .cont)
      | none => (true, [], .brk)
  | _ => (is_server_running, [], .cont)

/-- The client's `handle_event` drain loop: handles a queue of events in
order, carrying the flag, concatenating actions, and stopping early on a
break, a propagated error, or a panic. -/
def clientHandleEvents (is_server_running : Bool) :
    List (IpcEvent × ClientEnv) → StepResult
  | [] => (is_server_running, [], .cont)
  | (ev, env) :: rest =>
      match clientHandleOne is_server_running env ev with
      | (st', acts, .cont) =>
          match clientHandleEvents st' rest with
          | (st'', acts', exit') => (st'', acts ++ acts', exit')
      | r => r

/-- Oracle for the server handler's fallible collaborators: the non-blocking
pull, the filesystem (`std::fs::metadata(..).len()` and `std::fs::read`,
keyed by path bytes), and publish success. -/
structure ServerEnv where
  pull : Except Unit (Option Bytes)
  fsSize : Bytes → Except Unit Nat
  fsRead : Bytes → Except Unit Bytes
  publishOk : Bool

/-- The server's `receive` (`src/server.rs`): non-blocking pull; on a
received sample notify `RequestReceived` and return it. -/
def IpcServer.receive (pull : Except Unit (Option Bytes)) :
    List IpcAction × Except Unit (Option Bytes) :=
  match pull with
  | .error e => ([], .error e)
  | .ok none => ([], .ok none)
  | .ok (some s) => ([.notify .RequestReceived], .ok (some s))

/-- The server's `send` (`src/server.rs`): publish the bytes, then notify
`ResponseSent`; a failed publish returns `Err` before the notify. -/
def IpcServer.send (publishOk : Bool) (data : Bytes) :
    List IpcAction × Except Unit Unit :=
  if publishOk then ([.publish data, .notify .ResponseSent], .ok ())
  else ([], .error ())

/-- Dispatch of a decoded `Request` in the server's `RequestSent` arm:
`GetFileSize` reads the metadata length, `GetFileContent` reads the bytes;
a filesystem failure propagates via `?`; the encoded `Response` is then
published via `send` (whose failure also propagates via `?`). -/
def serverDispatch (env : ServerEnv) : Request → List IpcAction × StepExit
  | .GetFileSize p =>
      match env.fsSize p with
      | .error _ => ([], .err)
      | .ok size =>
          match IpcServer.send env.publishOk (encodeResponse (.FileSize size)) with
          | (acts, .ok _) => (acts, .cont)
          | (acts, .error _) => (acts, .err)
  | .GetFileContent p =>
      match env.fsRead p with
      | .error _ => ([], .err)
      | .ok content =>
          match IpcServer.send env.publishOk
              (encodeResponse (.FileContent content)) with
          | (acts, .ok _) => (acts, .cont)
          | (acts, .error _) => (acts, .err)

/-- One arm of the server's `handle_event` loop (`src/server.rs` lines
131-172), processing a single decoded event against the `has_client` flag:
`RequestSent` pulls (errors and absence silently absorbed by
`if let Ok(Some(..))`), notifies `RequestReceived`, `unwrap`s the `Request`
decode, and dispatches; `ClientConnected` sets the flag, refreshes
connections and notifies `ServerReady`; `ClientDisconnected` clears the
flag; `ResponseReceived` notifies `ServerReady`; every other event is
ignored. -/
def serverHandleOne (has_client : Bool) (env : ServerEnv)
    (ev : IpcEvent) : StepResult :=
  match ev with
  | .RequestSent =>
      match IpcServer.receive env.pull with
      | (acts, .ok (some s)) =>
          match decodeRequest s with
          | some req =>
              match serverDispatch env req with
              | (acts', exit) => (has_client, acts ++ acts', exit)
          | none => (has_client, acts, .unwind)
      | (acts, _) => (has_client, acts, .cont)
  | .ClientConnected =>
      (true, [.updateConnections, .notify .ServerReady], .cont)
  | .ClientDisconnected => (false, [], .cont)
  | .ResponseReceived => (has_client, [.notify .ServerReady], .cont)
  | _ => (has_client, [], .cont)

/-- The server's `handle_event` drain loop over a queue of decoded events. -/
def serverHandleEvents (has_client : Bool) :
    List (IpcEvent × ServerEnv) → StepResult
  | [] => (has_client, [], .cont)
  | (ev, env) :: rest =>
      match serverHandleOne has_client env ev with
      | (st', acts, .cont) =>
          match serverHandleEvents st' rest with
          | (st'', acts', exit') => (st'', acts ++ acts', exit')
      | r => r

/-- Outcome of one wake-up of the reactor loop: keep waiting
(`CallbackProgression::Continue`), stop the loop and return from `run`
(`CallbackProgression::Stop`), or unwind the process (a panic escaped the
callback). -/
inductive ReactorOutcome
  | cont
  | stop
  | unwind
  deriving DecidableEq, Repr

/-- The client's deadline in `src/client.rs`: 30 time units. -/
def clientDEADLINE : Nat := 30

/-- The server's deadline in `src/server.rs`: 15 time units. -/
def serverDEADLINE : Nat := 15

/-- The notification branch of the client's `on_event` closure
(`src/client.rs` lines 45-60): `Ok(ControlFlow::Break)` stops the reactor;
the catch-all `_ => ()` lets both `Ok(Continue)` and `Err` fall through to
`CallbackProgression::Continue`; a panic inside `handle_event` unwinds. -/
def clientOnNotification : StepExit → ReactorOutcome
  | .brk => .stop
  | .cont => .cont
  | .err => .cont
  | .unwind => .unwind

/-- The deadline branch of the client's `on_event` closure: print the
liveness warning then `CallbackProgression::Stop`, without consulting
`is_server_running` (the flag passes through untouched).  This branch is
dead code in the program: the client registers its listener with
`attach_notification` (`src/client.rs` line 43), which arms no deadline, so
`has_missed_deadline(&client_guard)` can never be true (see
`clientAttachment` and `WaitSetAttachment.canReport`). -/
def clientOnDeadline (is_server_running : Bool) :
    Bool × List IpcAction × ReactorOutcome :=
  (is_server_running, [.warn], .stop)

/-- How a guard is registered with the iceoryx2 waitset: either a plain
notification attachment (`attach_notification`) or a deadline attachment
(`attach_deadline`) carrying its timeout. -/
inductive WaitSetAttachment
  | notification
  | deadline (timeout : Nat)
  deriving DecidableEq, Repr

/-- Wake-up reports `wait_and_process` can deliver for one attachment:
`has_event_from` or `has_missed_deadline`. -/
inductive WakeUp
  | event
  | missedDeadline
  deriving DecidableEq, Repr

/-- Which wake-ups the waitset can deliver for a given attachment kind:
events fire for both kinds, but `has_missed_deadline` fires only for a
guard registered via `attach_deadline` — `attach_notification` arms no
timer. -/
def WaitSetAttachment.canReport : WaitSetAttachment → WakeUp → Bool
  | _, .event => true
  | .deadline _, .missedDeadline => true
  | .notification, .missedDeadline => false

/-- The client's waitset registration (`src/client.rs` line 43):
`waitset.attach_notification(&ipc_client)` — a notification attachment, no
deadline armed; `clientDEADLINE` appears only inside the warning string of
the dead missed-deadline branch. -/
def clientAttachment : WaitSetAttachment := .notification

/-- The server's waitset registration (`src/server.rs` line 43):
`waitset.attach_deadline(&ipc_server, DEADLINE)` with the 15-unit
deadline. -/
def serverAttachment : WaitSetAttachment := .deadline serverDEADLINE

/-- The notification branch of the server's `on_event` closure
(`src/server.rs` lines 45-60): `ipc_server.handle_event().unwrap()`, so a
propagated `Err` (and any panic) unwinds the process; otherwise continue. -/
def serverOnNotification : StepExit → ReactorOutcome
  | .cont => .cont
  | .brk => .cont
  | .err => .unwind
  | .unwind => .unwind

/-- The deadline branch of the server's `on_event` closure: with no client
attached, `CallbackProgression::Stop` (the idle server exits, without a
warning); with a client attached, print the liveness warning and continue
waiting, leaving `has_client` untouched. -/
def serverOnDeadline (has_client : Bool) :
    Bool × List IpcAction × ReactorOutcome :=
  if has_client then (has_client, [.warn], .cont)
  else (has_client, [], .stop)

/-- Notifications emitted by `IpcClient::new` after the ports are built:
exactly one `ClientConnected`; the initial `is_server_running` is `false`. -/
def clientNewActions : List IpcAction := [.notify .ClientConnected]

/-- The initial `is_server_running` flag set by `IpcClient::new`. -/
def clientInitialFlag : Bool := false

/-- The notification emitted by `impl Drop for IpcClient`: exactly one
`ClientDisconnected`, on every exit path of `client::run` (the value is
dropped when the `run` scope is left, whether by return, `?`, or unwind). -/
def clientDropActions : List IpcAction := [.notify .ClientDisconnected]

/-- Notifications emitted by `IpcServer::new` after the ports are built:
one `ServerConnected` then one `ServerReady`; the initial `has_client` is
`false`. -/
def serverNewActions : List IpcAction := [.notify .ServerConnected, .notify .ServerReady]

/-- The initial `has_client` flag set by `IpcServer::new`. -/
def serverInitialFlag : Bool := false

/-- The notification emitted by `impl Drop for IpcServer`: exactly one
`ServerDisconnected` on every exit path of `server::run`. -/
def serverDropActions : List IpcAction := [.notify .ServerDisconnected]

/-- Full observable lifetime of a client session: the construction
notification, then whatever the handler emits over any queue of wake-up
events, then the `Drop` notification (Rust runs `Drop` on every exit path
of the owning scope). -/
def clientLifetime (steps : List (IpcEvent × ClientEnv)) : List IpcAction :=
  clientNewActions ++ (clientHandleEvents clientInitialFlag steps).2.1 ++
    clientDropActions

/-- Full observable lifetime of a server session, analogous to
`clientLifetime`. -/
def serverLifetime (steps : List (IpcEvent × ServerEnv)) : List IpcAction :=
  serverNewActions ++ (serverHandleEvents serverInitialFlag steps).2.1 ++
    serverDropActions

/-- Failure modes of `IpcServer::new` as discriminated by `server::run`:
a `PublishSubscribeOpenOrCreateError` (the transport-open conflict) versus
any other error. -/
inductive NewError
  | pubSubOpen
  | other
  deriving DecidableEq, Repr

/-- The construction wrapper in `server::run` (`src/server.rs` lines 25-39):
on success proceed with the fresh server; on a transport-open failure run
one `cleanup_dead_nodes` pass and still return the original error (there is
no retry); on any other failure return it directly. -/
def serverRunInit (r : Except NewError Bool) :
    List IpcAction × Except NewError Bool :=
  match r with
  | .ok st => ([], .ok st)
  | .error .pubSubOpen => ([.cleanupDeadNodes], .error .pubSubOpen)
  | .error .other => ([], .error .other)


theorem readU32_u32le (t : Nat) (rest : Bytes) :
    readU32 (u32le t ++ rest) = some (t % 4294967296, rest) := by
  simp only [u32le, List.cons_append, List.nil_append, readU32, Option.some.injEq,
    Prod.mk.injEq, and_true]
  omega

theorem readU64_u64le (n : Nat) (rest : Bytes) :
    readU64 (u64le n ++ rest) = some (n % 18446744073709551616, rest) := by
  simp only [u64le, List.cons_append, List.nil_append, readU64, Option.some.injEq,
    Prod.mk.injEq, and_true]
  omega

theorem readU64_u64le_nil (n : Nat) :
    readU64 (u64le n) = some (n % 18446744073709551616, []) := by
  simpa using readU64_u64le n []

/-- C1: for every constructible `Request` value and every constructible
`Response` value `x`, decoding the bytes produced by encoding `x` yields a
value equal to `x` (equal tag and equal payload). -/
theorem C1_codec_roundtrip :
    (∀ r : Request, r.constructible →
      decodeRequest (encodeRequest r) = some r) ∧
    (∀ x : Response, x.constructible →
      decodeResponse (encodeResponse x) = some x) := by
  constructor
  · intro r h
    cases r with
    | GetFileSize p =>
        simp only [Request.constructible] at h
        simp [encodeRequest, decodeRequest, List.append_assoc, readU32_u32le,
          readU64_u64le, Nat.mod_eq_of_lt h, readBytes]
    | GetFileContent p =>
        simp only [Request.constructible] at h
        simp [encodeRequest, decodeRequest, List.append_assoc, readU32_u32le,
          readU64_u64le, Nat.mod_eq_of_lt h, readBytes]
  · intro x h
    cases x with
    | FileSize n =>
        simp only [Response.constructible] at h
        simp [encodeResponse, decodeResponse, readU32_u32le, readU64_u64le_nil,
          Nat.mod_eq_of_lt h]
    | FileContent d =>
        simp only [Response.constructible] at h
        simp [encodeResponse, decodeResponse, List.append_assoc, readU32_u32le,
          readU64_u64le, Nat.mod_eq_of_lt h, readBytes]

/-- Witness for C1 at the concrete request `GetFileSize "/a"` and the
concrete response `FileSize 6`. -/
theorem C1_codec_roundtrip_witness :
    decodeRequest (encodeRequest (.GetFileSize [47, 97])) =
      some (.GetFileSize [47, 97]) ∧
    decodeResponse (encodeResponse (.FileSize 6)) = some (.FileSize 6) :=
  ⟨C1_codec_roundtrip.1 (.GetFileSize [47, 97]) (by simp [Request.constructible]),
   C1_codec_roundtrip.2 (.FileSize 6) (by simp [Response.constructible])⟩

/-- C2: encoding any constructible owning `Response` and decoding the bytes
as the borrowing `ResponseRef` view succeeds and yields the same tag and a
byte-for-byte equal payload (`Response.toRef` preserves both). -/
theorem C2_responseref_binary_compat :
    ∀ x : Response, x.constructible →
      decodeResponseRef (encodeResponse x) = some x.toRef := by
  intro x h
  cases x with
  | FileSize n =>
      simp only [Response.constructible] at h
      simp [encodeResponse, decodeResponseRef, Response.toRef, readU32_u32le,
        readU64_u64le_nil, Nat.mod_eq_of_lt h]
  | FileContent d =>
      simp only [Response.constructible] at h
      simp [encodeResponse, decodeResponseRef, Response.toRef, List.append_assoc,
        readU32_u32le, readU64_u64le, Nat.mod_eq_of_lt h, readBytes]

/-- Witness for C2 at the concrete response `FileContent [61, 62, 63]`. -/
theorem C2_responseref_binary_compat_witness :
    decodeResponseRef (encodeResponse (.FileContent [61, 62, 63])) =
      some (ResponseRef.FileContent [61, 62, 63]) :=
  C2_responseref_binary_compat (.FileContent [61, 62, 63])
    (by simp [Response.constructible])

/-- C3: decoding an event from a raw integer identifier is total by
construction (`IpcEvent.fromEventId` is a Lean function); every integer
outside the ten enumerated discriminants decodes to `Unknown` (including
`u32::MAX`, the discriminant of `Unknown` itself); and both the client and
the server handler leave the connection flag unchanged, emit nothing, and
complete normally (no break, error, or panic) on an `Unknown` event. -/
theorem C3_unknown_total_and_ignored :
    (∀ n : Nat, 10 ≤ n → IpcEvent.fromEventId n = .Unknown) ∧
    (∀ st env, clientHandleOne st env .Unknown = (st, [], .cont)) ∧
    (∀ st env, serverHandleOne st env .Unknown = (st, [], .cont)) := by
  refine ⟨?_, fun st env => rfl, fun st env => rfl⟩
  intro n h
  simp only [IpcEvent.fromEventId, IpcEvent.tryFromPrimitive]
  split
  all_goals first
    | omega
    | (split <;> rfl)

/-- Witness for C3 at the raw identifier 42 and concrete environments. -/
theorem C3_unknown_total_and_ignored_witness :
    IpcEvent.fromEventId 42 = .Unknown ∧
    clientHandleOne false ⟨.ok none, none, false⟩ .Unknown =
      (false, [], .cont) ∧
    serverHandleOne false
        ⟨.ok none, fun _ => .error (), fun _ => .error (), false⟩ .Unknown =
      (false, [], .cont) :=
  ⟨C3_unknown_total_and_ignored.1 42 (by decide),
   C3_unknown_total_and_ignored.2.1 false ⟨.ok none, none, false⟩,
   C3_unknown_total_and_ignored.2.2 false
     ⟨.ok none, fun _ => .error (), fun _ => .error (), false⟩⟩

/-- C4: when the server's 15-unit deadline elapses with no client attached,
the reactor callback stops the loop (the server exits); when it elapses with
a client attached, only a liveness warning is emitted and the loop keeps
waiting with the `has_client` flag unchanged. -/
theorem C4_server_deadline_policy :
    serverOnDeadline false = (false, [], .stop) ∧
    serverOnDeadline true = (true, [.warn], .cont) ∧
    serverDEADLINE = 15 :=
  ⟨rfl, rfl, rfl⟩

/-- C5 is a code bug: the spec's 30-unit always-terminal client watchdog is
the evident intent — `clientDEADLINE = 30` is defined and the
missed-deadline branch that warns and stops is written — but the client
registers its listener with `attach_notification`, which arms no deadline,
so `has_missed_deadline` can never fire for the client and the branch is
dead code: after 30 silent time units the client keeps blocking instead of
warning and exiting.  The server, by contrast, really arms its 15-unit
deadline via `attach_deadline`. -/
theorem C5_client_deadline_unarmed :
    clientAttachment = .notification ∧
    clientAttachment.canReport .missedDeadline = false ∧
    serverAttachment = .deadline serverDEADLINE ∧
    serverAttachment.canReport .missedDeadline = true ∧
    clientDEADLINE = 30 ∧
    (∀ st : Bool, clientOnDeadline st = (st, [.warn], .stop)) :=
  ⟨rfl, rfl, rfl, rfl, rfl, fun _ => rfl⟩

/-- C6: a successful client publish produces exactly the trace
`[publish, notify RequestSent]` (the publish strictly precedes the notify)
and a failed publish notifies nothing; symmetrically for the server with
`ResponseSent`; a successful pull is followed by the complementary
acknowledgment (`ResponseReceived` on the client, `RequestReceived` on the
server) and an empty or failed pull notifies nothing — so no acknowledgment
notify is ever emitted without a preceding successful transfer. -/
theorem C6_notify_after_transfer :
    (∀ data, IpcClient.send true data =
      ([.publish data, .notify .RequestSent], .ok ())) ∧
    (∀ data, IpcClient.send false data = ([], .error ())) ∧
    (∀ data, IpcServer.send true data =
      ([.publish data, .notify .ResponseSent], .ok ())) ∧
    (∀ data, IpcServer.send false data = ([], .error ())) ∧
    (∀ s, IpcClient.receive (.ok (some s)) =
      ([.notify .ResponseReceived], .ok (some s))) ∧
    (IpcClient.receive (.ok none) = ([], .ok none)) ∧
    (∀ e, IpcClient.receive (.error e) = ([], .error e)) ∧
    (∀ s, IpcServer.receive (.ok (some s)) =
      ([.notify .RequestReceived], .ok (some s))) ∧
    (IpcServer.receive (.ok none) = ([], .ok none)) ∧
    (∀ e, IpcServer.receive (.error e) = ([], .error e)) := by
  refine ⟨fun data => ?_, fun data => ?_, fun data => ?_, fun data => ?_,
    fun s => rfl, rfl, fun e => rfl, fun s => rfl, rfl, fun e => rfl⟩ <;>
    simp [IpcClient.send, IpcServer.send]

theorem serverHandleOne_preserves_false (env : ServerEnv) (ev : IpcEvent)
    (h : ev ≠ .ClientConnected) :
    (serverHandleOne false env ev).1 = false := by
  cases ev <;> simp only [serverHandleOne]
  case ClientConnected => exact absurd rfl h
  case RequestSent =>
    rcases env.pull with e | op
    · rfl
    · rcases op with _ | s
      · rfl
      · simp only [IpcServer.receive]
        rcases decodeRequest s with _ | req
        · rfl
        · rcases hd : serverDispatch env req with ⟨acts', exit⟩
          simp [hd]

theorem serverHandleEvents_preserves_false
    (steps : List (IpcEvent × ServerEnv))
    (h : ∀ p ∈ steps, p.1 ≠ IpcEvent.ClientConnected) :
    (serverHandleEvents false steps).1 = false := by
  induction steps with
  | nil => rfl
  | cons p rest ih =>
      obtain ⟨ev, env⟩ := p
      have h1 : ev ≠ IpcEvent.ClientConnected := h (ev, env) (by simp)
      have h2 : ∀ q ∈ rest, q.1 ≠ IpcEvent.ClientConnected :=
        fun q hq => h q (List.mem_cons_of_mem _ hq)
      have hst := serverHandleOne_preserves_false env ev h1
      have hrest := ih h2
      simp only [serverHandleEvents]
      rcases hr : serverHandleOne false env ev with ⟨st', acts, exit⟩
      rw [hr] at hst
      simp only at hst
      subst hst
      cases exit
      case cont => exact hrest
      all_goals rfl

/-- C7: the server's `has_client` flag starts `false` at construction and
stays `false` along any drained event queue that contains no
`ClientConnected`; and a `RequestSent` event whose non-blocking pull
returns nothing leaves the state unchanged, emits no notification at all
(in particular no `RequestReceived`), and completes normally. -/
theorem C7_server_attach_and_pull_invariants :
    serverInitialFlag = false ∧
    (∀ steps : List (IpcEvent × ServerEnv),
      (∀ p ∈ steps, p.1 ≠ IpcEvent.ClientConnected) →
      (serverHandleEvents serverInitialFlag steps).1 = false) ∧
    (∀ st env, env.pull = .ok none →
      serverHandleOne st env .RequestSent = (st, [], .cont)) := by
  refine ⟨rfl, fun steps h => serverHandleEvents_preserves_false steps h, ?_⟩
  intro st env hp
  simp [serverHandleOne, IpcServer.receive, hp]

/-- Witness for C7: a queue holding one `RequestSent` wake-up with an empty
pull, against the freshly constructed server. -/
theorem C7_server_attach_and_pull_invariants_witness :
    serverInitialFlag = false ∧
    (serverHandleEvents serverInitialFlag
      [(.RequestSent, ⟨.ok none, fun _ => .error (), fun _ => .error (), true⟩)]).1
      = false ∧
    serverHandleOne true
        ⟨.ok none, fun _ => .error (), fun _ => .error (), true⟩ .RequestSent =
      (true, [], .cont) :=
  ⟨C7_server_attach_and_pull_invariants.1,
   C7_server_attach_and_pull_invariants.2.1
     [(.RequestSent, ⟨.ok none, fun _ => .error (), fun _ => .error (), true⟩)]
     (by simp),
   C7_server_attach_and_pull_invariants.2.2 true
     ⟨.ok none, fun _ => .error (), fun _ => .error (), true⟩ rfl⟩

theorem clientHandleOne_count_notify (st : Bool) (env : ClientEnv)
    (ev : IpcEvent) (e : IpcEvent) (h1 : e ≠ .RequestSent)
    (h2 : e ≠ .ResponseReceived) :
    ((clientHandleOne st env ev).2.1).count (.notify e) = 0 := by
  obtain ⟨pull, input, pok⟩ := env
  have hne1 : (IpcAction.notify e) ≠ .notify .RequestSent := by simp [h1]
  have hne2 : (IpcAction.notify e) ≠ .notify .ResponseReceived := by simp [h2]
  rcases pull with u | _ | s <;> rcases input with _ | line <;> rcases pok <;>
    cases ev <;>
    simp [clientHandleOne, IpcClient.receive, IpcClient.send,
      List.count_cons, List.count_append, hne1, hne2] <;>
    rcases decodeResponseRef s with _ | r <;>
    simp [List.count_cons, List.count_append, hne1, hne2]

theorem serverHandleOne_count_notify (st : Bool) (env : ServerEnv)
    (ev : IpcEvent) (e : IpcEvent) (h1 : e ≠ .RequestReceived)
    (h2 : e ≠ .ResponseSent) (h3 : e ≠ .ServerReady) :
    ((serverHandleOne st env ev).2.1).count (.notify e) = 0 := by
  obtain ⟨pull, fsSz, fsRd, pok⟩ := env
  have hne1 : (IpcAction.notify e) ≠ .notify .RequestReceived := by simp [h1]
  have hne2 : (IpcAction.notify e) ≠ .notify .ResponseSent := by simp [h2]
  have hne3 : (IpcAction.notify e) ≠ .notify .ServerReady := by simp [h3]
  rcases pull with u | _ | s <;> cases pok <;> cases ev <;>
    simp [serverHandleOne, IpcServer.receive, IpcServer.send, serverDispatch,
      List.count_cons, List.count_append, hne1, hne2, hne3] <;>
    rcases decodeRequest s with _ | req <;>
    simp [List.count_cons, List.count_append, hne1, hne2, hne3] <;>
    rcases req with p | p <;>
    simp [serverDispatch, IpcServer.send, List.count_cons, List.count_append,
      hne1, hne2, hne3] <;>
    first
      | (rcases fsSz p with _ | sz <;>
          simp [IpcServer.send, List.count_cons, List.count_append, hne1, hne2])
      | (rcases fsRd p with _ | ct <;>
          simp [IpcServer.send, List.count_cons, List.count_append, hne1, hne2])

theorem clientHandleEvents_count_notify (st : Bool)
    (steps : List (IpcEvent × ClientEnv)) (e : IpcEvent)
    (h1 : e ≠ .RequestSent) (h2 : e ≠ .ResponseReceived) :
    ((clientHandleEvents st steps).2.1).count (.notify e) = 0 := by
  induction steps generalizing st with
  | nil => rfl
  | cons p rest ih =>
      obtain ⟨ev, env⟩ := p
      simp only [clientHandleEvents]
      have hone := clientHandleOne_count_notify st env ev e h1 h2
      rcases hr : clientHandleOne st env ev with ⟨st', acts, exit⟩
      rw [hr] at hone
      simp only at hone
      cases exit
      case cont =>
        show (acts ++ (clientHandleEvents st' rest).2.1).count (.notify e) = 0
        simp [List.count_append, hone, ih st']
      all_goals exact hone

theorem serverHandleEvents_count_notify (st : Bool)
    (steps : List (IpcEvent × ServerEnv)) (e : IpcEvent)
    (h1 : e ≠ .RequestReceived) (h2 : e ≠ .ResponseSent)
    (h3 : e ≠ .ServerReady) :
    ((serverHandleEvents st steps).2.1).count (.notify e) = 0 := by
  induction steps generalizing st with
  | nil => rfl
  | cons p rest ih =>
      obtain ⟨ev, env⟩ := p
      simp only [serverHandleEvents]
      have hone := serverHandleOne_count_notify st env ev e h1 h2 h3
      rcases hr : serverHandleOne st env ev with ⟨st', acts, exit⟩
      rw [hr] at hone
      simp only at hone
      cases exit
      case cont =>
        show (acts ++ (serverHandleEvents st' rest).2.1).count (.notify e) = 0
        simp [List.count_append, hone, ih st']
      all_goals exact hone

/-- C8: over its full lifetime, however the reactor run ends (deadline,
cancellation, input exhaustion, or error — the handler trace is quantified
over every possible drained queue, and `Drop` runs on every exit path of
`run`), a client session emits exactly one `ClientConnected` notification
(at construction) and exactly one `ClientDisconnected` notification (at
destruction), and a server session emits exactly one `ServerConnected` and
exactly one `ServerDisconnected`. -/
theorem C8_lifecycle_notifications :
    (∀ steps : List (IpcEvent × ClientEnv),
      (clientLifetime steps).count (.notify .ClientConnected) = 1 ∧
      (clientLifetime steps).count (.notify .ClientDisconnected) = 1) ∧
    (∀ steps : List (IpcEvent × ServerEnv),
      (serverLifetime steps).count (.notify .ServerConnected) = 1 ∧
      (serverLifetime steps).count (.notify .ServerDisconnected) = 1) := by
  constructor
  · intro steps
    have hcc := clientHandleEvents_count_notify clientInitialFlag steps
      .ClientConnected (by decide) (by decide)
    have hcd := clientHandleEvents_count_notify clientInitialFlag steps
      .ClientDisconnected (by decide) (by decide)
    constructor <;>
      simp [clientLifetime, clientNewActions, clientDropActions,
        List.count_append, List.count_cons, hcc, hcd]
  · intro steps
    have hsc := serverHandleEvents_count_notify serverInitialFlag steps
      .ServerConnected (by decide) (by decide) (by decide)
    have hsd := serverHandleEvents_count_notify serverInitialFlag steps
      .ServerDisconnected (by decide) (by decide) (by decide)
    constructor <;>
      simp [serverLifetime, serverNewActions, serverDropActions,
        List.count_append, List.count_cons, hsc, hsd]

/-- C9 counterexample: a pull failure (a transport error from
`subscriber.receive()`) while the client handles `ResponseSent` is silently
absorbed by the `if let Ok(Some(..))` pattern — the handler completes
normally and the reactor callback keeps waiting, so the process does not
unwind, contradicting the claim that every pull failure after the channels
are open unwinds the process on both peers. -/
theorem C9_counterexample_client_pull_failure :
    clientHandleOne false ⟨.error (), none, true⟩ .ResponseSent =
      (false, [], .cont) ∧
    clientOnNotification .cont = .cont ∧
    ReactorOutcome.cont ≠ ReactorOutcome.unwind :=
  ⟨rfl, rfl, by decide⟩

/-- C9 as amended: error propagation after the channels are open is
asymmetric. On the server a handler error propagated out of `handle_event`
(for example a publish failure while dispatching) unwinds the process via
the reactor's `unwrap`; but a pull failure is silently absorbed as an
absent message on both peers, the client's reactor callback ignores handler
errors entirely (`_ => ()`), the client discards the result of a failed
request publish (`let _ = self.send(..)`), and a transport-open failure at
server construction triggers exactly one `cleanup_dead_nodes` pass while
still surfacing the original error — cleanup, but no retry. -/
theorem C9_error_policy_asymmetric :
    serverOnNotification .err = .unwind ∧
    clientOnNotification .err = .cont ∧
    (∀ env p sz, env.fsSize p = .ok sz → env.publishOk = false →
      serverDispatch env (.GetFileSize p) = ([], .err)) ∧
    (∀ st env, env.pull = .error () →
      serverHandleOne st env .RequestSent = (st, [], .cont)) ∧
    (∀ st env, env.pull = .error () →
      clientHandleOne st env .ResponseSent = (st, [], .cont)) ∧
    (∀ st env line, env.input = some line → env.publishOk = false →
      clientHandleOne st env .ServerReady = (true, [], .cont)) ∧
    serverRunInit (.error .pubSubOpen) =
      ([.cleanupDeadNodes], .error .pubSubOpen) ∧
    serverRunInit (.error .other) = ([], .error .other) := by
  refine ⟨rfl, rfl, ?_, ?_, ?_, ?_, rfl, rfl⟩
  · intro env p sz hs hp
    simp [serverDispatch, hs, IpcServer.send, hp]
  · intro st env hp
    simp [serverHandleOne, IpcServer.receive, hp]
  · intro st env hp
    simp [clientHandleOne, IpcClient.receive, hp]
  · intro st env line hin hp
    simp [clientHandleOne, hin, IpcClient.send, hp]

/-- Witness for the amended C9 at concrete environments: a failed publish
during `GetFileSize` dispatch, a failed pull on each peer, and a discarded
client send failure. -/
theorem C9_error_policy_asymmetric_witness :
    serverDispatch ⟨.ok none, fun _ => .ok 6, fun _ => .ok [], false⟩
      (.GetFileSize [47]) = ([], .err) ∧
    serverHandleOne true ⟨.error (), fun _ => .ok 6, fun _ => .ok [], false⟩
      .RequestSent = (true, [], .cont) ∧
    clientHandleOne true ⟨.error (), some [47], false⟩ .ResponseSent =
      (true, [], .cont) ∧
    clientHandleOne false ⟨.ok none, some [47], false⟩ .ServerReady =
      (true, [], .cont) :=
  ⟨C9_error_policy_asymmetric.2.2.1
      ⟨.ok none, fun _ => .ok 6, fun _ => .ok [], false⟩ [47] 6 rfl rfl,
   C9_error_policy_asymmetric.2.2.2.1 true
      ⟨.error (), fun _ => .ok 6, fun _ => .ok [], false⟩ rfl,
   C9_error_policy_asymmetric.2.2.2.2.1 true ⟨.error (), some [47], false⟩ rfl,
   C9_error_policy_asymmetric.2.2.2.2.2.1 false ⟨.ok none, some [47], false⟩
      [47] rfl rfl⟩

theorem clientHandleOne_publish (st : Bool) (env : ClientEnv) (ev : IpcEvent)
    (data : Bytes)
    (h : IpcAction.publish data ∈ (clientHandleOne st env ev).2.1) :
    ∃ p, data = encodeRequest (.GetFileContent p) := by
  obtain ⟨pull, input, pok⟩ := env
  rcases pull with u | _ | s <;> rcases input with _ | line <;> rcases pok <;>
    cases ev <;>
    simp [clientHandleOne, IpcClient.receive, IpcClient.send] at h <;>
    first
      | exact ⟨line, h⟩
      | (rcases hd : decodeResponseRef s with _ | r <;>
          simp [hd, List.mem_append] at h)

theorem clientHandleEvents_publish (st : Bool)
    (steps : List (IpcEvent × ClientEnv)) (data : Bytes)
    (h : IpcAction.publish data ∈ (clientHandleEvents st steps).2.1) :
    ∃ p, data = encodeRequest (.GetFileContent p) := by
  induction steps generalizing st with
  | nil => simp [clientHandleEvents] at h
  | cons pr rest ih =>
      obtain ⟨ev, env⟩ := pr
      simp only [clientHandleEvents] at h
      rcases hr : clientHandleOne st env ev with ⟨st', acts, exit⟩
      rw [hr] at h
      cases exit
      case cont =>
        have h' : IpcAction.publish data ∈
            acts ++ (clientHandleEvents st' rest).2.1 := h
        rcases List.mem_append.1 h' with hm | hm
        · exact clientHandleOne_publish st env ev data (by rw [hr]; exact hm)
        · exact ih st' hm
      all_goals
        exact clientHandleOne_publish st env ev data (by rw [hr]; exact h)

theorem encodeRequest_content_ne_size (p q : Bytes) :
    encodeRequest (.GetFileContent p) ≠ encodeRequest (.GetFileSize q) := by
  simp [encodeRequest, u32le]

/-- C10: every byte string the client session ever publishes is the
encoding of a `GetFileContent` request, and is never the encoding of a
`GetFileSize` request, whatever events are drained and whatever the
environment supplies. -/
theorem C10_client_sends_only_getfilecontent :
    ∀ (st : Bool) (steps : List (IpcEvent × ClientEnv)) (data : Bytes),
      IpcAction.publish data ∈ (clientHandleEvents st steps).2.1 →
      (∃ p, data = encodeRequest (.GetFileContent p)) ∧
      ∀ q, data ≠ encodeRequest (.GetFileSize q) := by
  intro st steps data h
  obtain ⟨p, hp⟩ := clientHandleEvents_publish st steps data h
  subst hp
  exact ⟨⟨p, rfl⟩, fun q => encodeRequest_content_ne_size p q⟩

/-- Witness for C10 at a concrete one-event queue in which the client
publishes the encoded request for path `/`. -/
theorem C10_client_sends_only_getfilecontent_witness :
    (∃ p, encodeRequest (.GetFileContent [47]) =
      encodeRequest (.GetFileContent p)) ∧
    ∀ q, encodeRequest (.GetFileContent [47]) ≠
      encodeRequest (.GetFileSize q) :=
  C10_client_sends_only_getfilecontent false
    [(.ServerReady, ⟨.ok none, some [47], true⟩)]
    (encodeRequest (.GetFileContent [47]))
    (by decide)
